import Mathlib

/- A shallow embedding of src/calibre_plugins/find_duplicates/config.py.

   JSON-like preference values are modelled by the inductive type Value.
   Python dicts (per-library preference records, the legacy libraries map
   of the global JSON file, and the namespaced per-library preference
   store db.prefs of the host application) are modelled as association
   lists with Python dict semantics: assignment replaces the first
   binding in place or appends a fresh binding at the end, deletion
   removes the binding, lookup returns the first binding.

   The mutable host state touched by the module is gathered in State:
   the optional value of the libraries key of plugin_prefs (the only key
   of the global JSON file that the modelled functions read or write)
   and the namespaced store db.prefs.  The host store hands values out
   and takes them in by value: every read returns the stored record and
   every write replaces it whole.  The library uuid (get_library_uuid)
   and the host predicate db.data.has_id are modelled as fields of Db.
   All functions are state passing: a Python function that mutates these
   stores returns the new State alongside its result.  A code path on
   which Python would raise (a book-exemptions value that is not a list
   of lists) is modelled by Option, with none for the raising path. -/

namespace FindDup

/-- JSON-like values as stored in the preference records.  Python floats
only ever hold the schema version 1.5 here, so they are represented
exactly by rationals. -/
inductive Value : Type where
  | str : String → Value
  | int : Int → Value
  | flt : Rat → Value
  | arr : List Value → Value
  | dict : List (String × Value) → Value

/-- A preference record: a Python dict with string keys. -/
abbrev Record := List (String × Value)

/-- First binding of a key in an association list (Python dict lookup). -/
def alLookup {κ α : Type} [DecidableEq κ] (k : κ) : List (κ × α) → Option α
  | [] => none
  | p :: rest => if p.1 = k then some p.2 else alLookup k rest

/-- Python dict.get with a default. -/
def alGetD {κ α : Type} [DecidableEq κ] (d : List (κ × α)) (k : κ) (dflt : α) : α :=
  (alLookup k d).getD dflt

/-- Python dict assignment: replace the first binding in place, or append. -/
def alInsert {κ α : Type} [DecidableEq κ] (k : κ) (v : α) : List (κ × α) → List (κ × α)
  | [] => [(k, v)]
  | p :: rest => if p.1 = k then (k, v) :: rest else p :: alInsert k v rest

/-- Python del: remove the binding of a key. -/
def alErase {κ α : Type} [DecidableEq κ] (k : κ) : List (κ × α) → List (κ × α)
  | [] => []
  | p :: rest => if p.1 = k then alErase k rest else p :: alErase k rest

/-- Python dict membership test. -/
def alContains {κ α : Type} [DecidableEq κ] (k : κ) (d : List (κ × α)) : Bool :=
  (alLookup k d).isSome

/-- The immutable aspects of the database handle: its library uuid
(get_library_uuid from common_utils) and the host id test db.data.has_id
on whatever value a stored exemption list holds. -/
structure Db : Type where
  uuid : String
  hasId : Value → Bool

/-- The mutable host state the module reads and writes: the value bound
to the libraries key of the global JSON file plugin_prefs when that key
is present (a dict from library uuid to preference record), and the
namespaced per-library store db.prefs keyed by namespace and key. -/
@[ext]
structure State : Type where
  libraries? : Option (List (String × Record))
  dbPrefs : List ((String × String) × Record)

def PREFS_NAMESPACE : String := "FindDuplicatesPlugin"

def PREFS_KEY_SETTINGS : String := "settings"

def KEY_LAST_LIBRARY_COMPARE : String := "lastLibraryCompare"

def KEY_BOOK_EXEMPTIONS : String := "bookExemptions"

def KEY_AUTHOR_EXEMPTIONS : String := "authorExemptions"

def KEY_SCHEMA_VERSION : String := "SchemaVersion"

def DEFAULT_SCHEMA_VERSION : Rat := 1.5

/-- The literal key bookNotDuplicates used in get_exemption_lists. -/
def KEY_BOOK_NOT_DUPLICATES : String := "bookNotDuplicates"

/-- The literal key authorNotDuplicates used in get_exemption_lists. -/
def KEY_AUTHOR_NOT_DUPLICATES : String := "authorNotDuplicates"

def DEFAULT_LIBRARY_VALUES : Record :=
  [(KEY_LAST_LIBRARY_COMPARE, Value.str ("")),
   (KEY_BOOK_EXEMPTIONS, Value.arr []),
   (KEY_AUTHOR_EXEMPTIONS, Value.arr []),
   (KEY_SCHEMA_VERSION, Value.flt DEFAULT_SCHEMA_VERSION)]

/-- Host API db.prefs.get_namespaced(namespace, key, default). -/
def get_namespaced (s : State) (ns key : String) (dflt : Record) : Record :=
  (alLookup (ns, key) s.dbPrefs).getD dflt

/-- Host API db.prefs.set_namespaced(namespace, key, val). -/
def set_namespaced (s : State) (ns key : String) (v : Record) : State :=
  { s with dbPrefs := alInsert (ns, key) v s.dbPrefs }

def get_library_uuid (db : Db) : String :=
  db.uuid

def set_library_config (db : Db) (library_config : Record) (s : State) : State :=
  set_namespaced s PREFS_NAMESPACE PREFS_KEY_SETTINGS library_config

/-- Python equality of a stored schema-version value with the float 1.5:
true exactly for the float 1.5, since no int, string, list or dict
compares equal to 1.5 in Python. -/
def isCurrentSchema : Value → Bool
  | Value.flt q => decide (q = DEFAULT_SCHEMA_VERSION)
  | _ => false

def migrate_library_config_if_required (db : Db) (library_config : Record) (s : State) :
    Record × State :=
  let schema_version := alGetD library_config KEY_SCHEMA_VERSION (Value.int 0)
  if isCurrentSchema schema_version then (library_config, s)
  else
    let library_config :=
      alInsert KEY_SCHEMA_VERSION (Value.flt DEFAULT_SCHEMA_VERSION) library_config
    (library_config, set_library_config db library_config s)

/- get_library_config: the common tail of the Python function (falling
   back to the stored record or the default, then migrating) is
   duplicated into each branch in which library_config stays None. -/
def get_library_config (db : Db) (s : State) : Record × State :=
  let library_id := get_library_uuid db
  match s.libraries? with
  | some libraries =>
    match alLookup library_id libraries with
    | some library_config =>
      let libraries := alErase library_id libraries
      let s :=
        if libraries.length = 0 then { s with libraries? := none }
        else { s with libraries? := some libraries }
      migrate_library_config_if_required db library_config s
    | none =>
      migrate_library_config_if_required db
        (get_namespaced s PREFS_NAMESPACE PREFS_KEY_SETTINGS DEFAULT_LIBRARY_VALUES) s
  | none =>
    migrate_library_config_if_required db
      (get_namespaced s PREFS_NAMESPACE PREFS_KEY_SETTINGS DEFAULT_LIBRARY_VALUES) s

def set_exemption_list (db : Db) (config_key : String) (exemptions_list : Value) (s : State) :
    State :=
  match get_library_config db s with
  | (library_config, s) =>
    set_library_config db (alInsert config_key exemptions_list library_config) s

/-- The first legacy-key branch of get_exemption_lists: discard a v1.0
bookNotDuplicates map from the local record and store an empty
bookExemptions list. -/
def dropLegacyBook (db : Db) (library_config : Record) (s : State) : Record × State :=
  if alContains KEY_BOOK_NOT_DUPLICATES library_config then
    (alErase KEY_BOOK_NOT_DUPLICATES library_config,
     set_exemption_list db KEY_BOOK_EXEMPTIONS (Value.arr []) s)
  else (library_config, s)

/-- The second legacy-key branch of get_exemption_lists, for
authorNotDuplicates. -/
def dropLegacyAuthor (db : Db) (library_config : Record) (s : State) : Record × State :=
  if alContains KEY_AUTHOR_NOT_DUPLICATES library_config then
    (alErase KEY_AUTHOR_NOT_DUPLICATES library_config,
     set_exemption_list db KEY_AUTHOR_EXEMPTIONS (Value.arr []) s)
  else (library_config, s)

/-- The pruning loop of get_exemption_lists over the book-exemption
groups: each group is filtered through has_id, a group is replaced only
when the filter shrank it, and is_changed records whether any group
shrank.  A group that is not a list makes Python raise: none. -/
def pruneLists (hasId : Value → Bool) : List Value → Option (List Value × Bool)
  | [] => some ([], false)
  | old_list :: rest =>
    match old_list with
    | Value.arr ol =>
      let nl := ol.filter hasId
      match pruneLists hasId rest with
      | some (rest', is_changed) =>
        if ol.length ≠ nl.length then some (Value.arr nl :: rest', true)
        else some (old_list :: rest', is_changed)
      | none => none
    | _ => none

/-- True for a non-empty stored list: the filter applied to the pruned
groups when any group shrank. -/
def isNonEmptyArr : Value → Bool
  | Value.arr l => decide (0 < l.length)
  | _ => false

/-- The part of get_exemption_lists after the initial get_library_config:
legacy v1.0 keys, pruning, and the returned pair. -/
def exemption_tail (db : Db) (library_config : Record) (s : State) :
    Option ((List Value × Value) × State) :=
  match dropLegacyBook db library_config s with
  | (library_config, s) =>
  match dropLegacyAuthor db library_config s with
  | (library_config, s) =>
  match alGetD library_config KEY_BOOK_EXEMPTIONS (Value.arr []) with
  | Value.arr book_exemptions =>
    match pruneLists db.hasId book_exemptions with
    | some (pruned, is_changed) =>
      if is_changed then
        let book_exemptions := pruned.filter isNonEmptyArr
        some ((book_exemptions,
               alGetD library_config KEY_AUTHOR_EXEMPTIONS (Value.arr [])),
              set_exemption_list db KEY_BOOK_EXEMPTIONS (Value.arr book_exemptions) s)
      else
        some ((pruned, alGetD library_config KEY_AUTHOR_EXEMPTIONS (Value.arr [])), s)
    | none => none
  | _ => none

def get_exemption_lists (db : Db) (s : State) : Option ((List Value × Value) × State) :=
  match get_library_config db s with
  | (library_config, s) => exemption_tail db library_config s

/-- The uuid of db has no entry in the legacy libraries map of the
global JSON file (when that key is present at all). -/
def noLegacy (db : Db) (s : State) : Prop :=
  ∀ L, s.libraries? = some L → alLookup (get_library_uuid db) L = none

/- Concrete inputs for the witnesses and counterexamples below. -/

def uuidA : String := "lib-uuid-a"

def uuidB : String := "lib-uuid-b"

/- C1: a legacy JSON record already carrying SchemaVersion 1.5 is
dropped instead of being written to db.prefs. -/

def c1db : Db := { uuid := uuidA, hasId := fun _ => true }

def c1cfg : Record :=
  [(KEY_SCHEMA_VERSION, Value.flt DEFAULT_SCHEMA_VERSION),
   (KEY_BOOK_EXEMPTIONS, Value.arr [Value.arr [Value.int 7]])]

def c1s : State := { libraries? := some [(uuidA, c1cfg)], dbPrefs := [] }

/- C1 witness: a legacy JSON record with no SchemaVersion entry. -/

def c1wdb : Db := { uuid := uuidB, hasId := fun _ => true }

def c1wcfg : Record := [(KEY_BOOK_EXEMPTIONS, Value.arr [Value.arr [Value.int 7]])]

def c1ws : State := { libraries? := some [(uuidB, c1wcfg)], dbPrefs := [] }

/- C2 witness: a legacy entry that is the last entry of the map. -/

def c2db : Db := { uuid := uuidA, hasId := fun _ => true }

def c2cfg : Record := [(KEY_SCHEMA_VERSION, Value.flt DEFAULT_SCHEMA_VERSION)]

def c2s : State := { libraries? := some [(uuidA, c2cfg)], dbPrefs := [] }

/- C3 witness: one stored group with one id present in the library. -/

def c3db : Db := { uuid := uuidA, hasId := fun _ => true }

def c3R : Record :=
  [(KEY_SCHEMA_VERSION, Value.flt DEFAULT_SCHEMA_VERSION),
   (KEY_BOOK_EXEMPTIONS, Value.arr [Value.arr [Value.int 1]])]

def c3s : State :=
  { libraries? := none, dbPrefs := [((PREFS_NAMESPACE, PREFS_KEY_SETTINGS), c3R)] }

/- C4 witness. -/

def c4db : Db := { uuid := uuidA, hasId := fun _ => true }

def c4cfg : Record := [(KEY_SCHEMA_VERSION, Value.flt DEFAULT_SCHEMA_VERSION)]

def c4s : State := { libraries? := none, dbPrefs := [] }

/- C5 counterexample: a stored record with the v1.0 key
bookNotDuplicates and a non-empty bookExemptions value.  The second
call returns a different pair than the first. -/

def c5db : Db := { uuid := uuidA, hasId := fun _ => true }

def c5R0 : Record :=
  [(KEY_SCHEMA_VERSION, Value.flt DEFAULT_SCHEMA_VERSION),
   (KEY_BOOK_NOT_DUPLICATES, Value.arr []),
   (KEY_BOOK_EXEMPTIONS, Value.arr [Value.arr [Value.int 1]])]

def c5s : State :=
  { libraries? := none, dbPrefs := [((PREFS_NAMESPACE, PREFS_KEY_SETTINGS), c5R0)] }

def c5R1 : Record :=
  [(KEY_SCHEMA_VERSION, Value.flt DEFAULT_SCHEMA_VERSION),
   (KEY_BOOK_NOT_DUPLICATES, Value.arr []),
   (KEY_BOOK_EXEMPTIONS, Value.arr [])]

def c5s1 : State :=
  { libraries? := none, dbPrefs := [((PREFS_NAMESPACE, PREFS_KEY_SETTINGS), c5R1)] }

/- C5 witness: a clean stored record holding one stale id. -/

def c5wdb : Db := { uuid := uuidA, hasId := fun _ => false }

def c5wR : Record :=
  [(KEY_SCHEMA_VERSION, Value.flt DEFAULT_SCHEMA_VERSION),
   (KEY_BOOK_EXEMPTIONS, Value.arr [Value.arr [Value.int 9]])]

def c5ws : State :=
  { libraries? := none, dbPrefs := [((PREFS_NAMESPACE, PREFS_KEY_SETTINGS), c5wR)] }

def c5wR1 : Record :=
  [(KEY_SCHEMA_VERSION, Value.flt DEFAULT_SCHEMA_VERSION),
   (KEY_BOOK_EXEMPTIONS, Value.arr [])]

def c5ws1 : State :=
  { libraries? := none, dbPrefs := [((PREFS_NAMESPACE, PREFS_KEY_SETTINGS), c5wR1)] }

/- C6 witness: empty host state. -/

def c6db : Db := { uuid := uuidA, hasId := fun _ => true }

def c6s : State := { libraries? := none, dbPrefs := [] }

/- C7 witness. -/

def c7db : Db := { uuid := uuidA, hasId := fun _ => true }

def c7s : State := { libraries? := none, dbPrefs := [] }

def c7v : Value := Value.arr [Value.arr [Value.int 5]]

/- C9 counterexample: bookNotDuplicates next to a non-empty
bookExemptions value; the returned book list is not empty. -/

def c9db : Db := { uuid := uuidA, hasId := fun _ => true }

def c9R : Record :=
  [(KEY_SCHEMA_VERSION, Value.flt DEFAULT_SCHEMA_VERSION),
   (KEY_BOOK_NOT_DUPLICATES, Value.arr []),
   (KEY_BOOK_EXEMPTIONS, Value.arr [Value.arr [Value.int 3]])]

def c9s : State :=
  { libraries? := none, dbPrefs := [((PREFS_NAMESPACE, PREFS_KEY_SETTINGS), c9R)] }

def c9R1 : Record :=
  [(KEY_SCHEMA_VERSION, Value.flt DEFAULT_SCHEMA_VERSION),
   (KEY_BOOK_NOT_DUPLICATES, Value.arr []),
   (KEY_BOOK_EXEMPTIONS, Value.arr [])]

def c9s1 : State :=
  { libraries? := none, dbPrefs := [((PREFS_NAMESPACE, PREFS_KEY_SETTINGS), c9R1)] }

/- C9 witness: a v1.0 record with both legacy maps, no new-style keys
and no schema version. -/

def c9wdb : Db := { uuid := uuidA, hasId := fun _ => true }

def c9wR : Record :=
  [(KEY_BOOK_NOT_DUPLICATES, Value.dict []),
   (KEY_AUTHOR_NOT_DUPLICATES, Value.dict [])]

def c9ws : State :=
  { libraries? := none, dbPrefs := [((PREFS_NAMESPACE, PREFS_KEY_SETTINGS), c9wR)] }

def c9wR2 : Record :=
  [(KEY_BOOK_NOT_DUPLICATES, Value.dict []),
   (KEY_AUTHOR_NOT_DUPLICATES, Value.dict []),
   (KEY_SCHEMA_VERSION, Value.flt DEFAULT_SCHEMA_VERSION),
   (KEY_BOOK_EXEMPTIONS, Value.arr []),
   (KEY_AUTHOR_EXEMPTIONS, Value.arr [])]

def c9ws1 : State :=
  { libraries? := none, dbPrefs := [((PREFS_NAMESPACE, PREFS_KEY_SETTINGS), c9wR2)] }

/- C10 counterexample: authorNotDuplicates next to a non-empty
authorExemptions value, whose stored value is overwritten. -/

def c10db : Db := { uuid := uuidA, hasId := fun _ => true }

def c10X : Value := Value.arr [Value.arr [Value.int 11]]

def c10R : Record :=
  [(KEY_SCHEMA_VERSION, Value.flt DEFAULT_SCHEMA_VERSION),
   (KEY_AUTHOR_NOT_DUPLICATES, Value.arr []),
   (KEY_AUTHOR_EXEMPTIONS, c10X)]

def c10s : State :=
  { libraries? := none, dbPrefs := [((PREFS_NAMESPACE, PREFS_KEY_SETTINGS), c10R)] }

def c10R1 : Record :=
  [(KEY_SCHEMA_VERSION, Value.flt DEFAULT_SCHEMA_VERSION),
   (KEY_AUTHOR_NOT_DUPLICATES, Value.arr []),
   (KEY_AUTHOR_EXEMPTIONS, Value.arr [])]

def c10s1 : State :=
  { libraries? := none, dbPrefs := [((PREFS_NAMESPACE, PREFS_KEY_SETTINGS), c10R1)] }

/- C10 witness: a clean record with an empty inner book group, a valid
id, and an author value referencing an id the library does not have. -/

def c10wdb : Db :=
  { uuid := uuidA,
    hasId := fun v => match v with
      | Value.int 2 => true
      | _ => false }

def c10wbl : List Value := [Value.arr [], Value.arr [Value.int 2]]

def c10wX : Value := Value.arr [Value.arr [Value.int 77]]

def c10wR : Record :=
  [(KEY_SCHEMA_VERSION, Value.flt DEFAULT_SCHEMA_VERSION),
   (KEY_BOOK_EXEMPTIONS, Value.arr c10wbl),
   (KEY_AUTHOR_EXEMPTIONS, c10wX)]

def c10ws : State :=
  { libraries? := none, dbPrefs := [((PREFS_NAMESPACE, PREFS_KEY_SETTINGS), c10wR)] }

/- C10 witness inputs on which book pruning fires: the group holds the
valid id 2 next to the stale id 5, so the pruning write happens, while
the author value names an id the library does not have. -/

def c10vbl : List Value := [Value.arr [Value.int 2, Value.int 5]]

def c10vX : Value := Value.arr [Value.arr [Value.int 77]]

def c10vR : Record :=
  [(KEY_SCHEMA_VERSION, Value.flt DEFAULT_SCHEMA_VERSION),
   (KEY_BOOK_EXEMPTIONS, Value.arr c10vbl),
   (KEY_AUTHOR_EXEMPTIONS, c10vX)]

def c10vs : State :=
  { libraries? := none, dbPrefs := [((PREFS_NAMESPACE, PREFS_KEY_SETTINGS), c10vR)] }

def c10vR1 : Record :=
  [(KEY_SCHEMA_VERSION, Value.flt DEFAULT_SCHEMA_VERSION),
   (KEY_BOOK_EXEMPTIONS, Value.arr [Value.arr [Value.int 2]]),
   (KEY_AUTHOR_EXEMPTIONS, c10vX)]

def c10vs1 : State :=
  { libraries? := none, dbPrefs := [((PREFS_NAMESPACE, PREFS_KEY_SETTINGS), c10vR1)] }

/- Association-list lemmas. -/

theorem alLookup_alInsert_self {κ α : Type} [DecidableEq κ] (k : κ) (v : α) (d : List (κ × α)) :
    alLookup k (alInsert k v d) = some v := by
  induction d with
  | nil => simp [alInsert, alLookup]
  | cons p rest ih =>
    by_cases h : p.1 = k
    · simp [alInsert, alLookup, h]
    · simp [alInsert, alLookup, h, ih]

theorem alLookup_alInsert_ne {κ α : Type} [DecidableEq κ] (k k' : κ) (v : α)
    (d : List (κ × α)) (h : k' ≠ k) :
    alLookup k (alInsert k' v d) = alLookup k d := by
  induction d with
  | nil => simp [alInsert, alLookup, h]
  | cons p rest ih =>
    by_cases hp : p.1 = k'
    · simp [alInsert, alLookup, hp, h]
    · by_cases hk : p.1 = k
      · simp [alInsert, alLookup, hp, hk, h.symm]
      · simp [alInsert, alLookup, hp, hk, ih]

theorem alLookup_alErase_self {κ α : Type} [DecidableEq κ] (k : κ) (d : List (κ × α)) :
    alLookup k (alErase k d) = none := by
  induction d with
  | nil => simp [alErase, alLookup]
  | cons p rest ih =>
    by_cases h : p.1 = k
    · simp [alErase, alLookup, h, ih]
    · simp [alErase, alLookup, h, ih]

theorem alLookup_alErase_ne {κ α : Type} [DecidableEq κ] (k k' : κ)
    (d : List (κ × α)) (h : k' ≠ k) :
    alLookup k (alErase k' d) = alLookup k d := by
  induction d with
  | nil => simp [alErase, alLookup]
  | cons p rest ih =>
    by_cases hp : p.1 = k'
    · have hpk : ¬ p.1 = k := by
        intro hk
        exact h (hp ▸ hk)
      simp [alErase, alLookup, hp, hpk, h, ih]
    · by_cases hk : p.1 = k
      · simp [alErase, alLookup, hp, hk, h.symm]
      · simp [alErase, alLookup, hp, hk, ih]

theorem alContains_alInsert_ne {κ α : Type} [DecidableEq κ] (k k' : κ) (v : α)
    (d : List (κ × α)) (h : k' ≠ k) :
    alContains k (alInsert k' v d) = alContains k d := by
  simp [alContains, alLookup_alInsert_ne k k' v d h]

theorem alGetD_alInsert_self {κ α : Type} [DecidableEq κ] (k : κ) (v dflt : α)
    (d : List (κ × α)) :
    alGetD (alInsert k v d) k dflt = v := by
  simp [alGetD, alLookup_alInsert_self]

theorem alGetD_alInsert_ne {κ α : Type} [DecidableEq κ] (k k' : κ) (v dflt : α)
    (d : List (κ × α)) (h : k' ≠ k) :
    alGetD (alInsert k' v d) k dflt = alGetD d k dflt := by
  simp [alGetD, alLookup_alInsert_ne k k' v d h]

/- Schema-version test lemmas. -/

theorem isCurrentSchema_true_iff (v : Value) :
    isCurrentSchema v = true ↔ v = Value.flt DEFAULT_SCHEMA_VERSION := by
  cases v <;> simp [isCurrentSchema]

theorem isCurrentSchema_default : isCurrentSchema (Value.flt DEFAULT_SCHEMA_VERSION) = true := by
  simp [isCurrentSchema]

/- State bookkeeping lemmas. -/

theorem libraries_set_namespaced (s : State) (ns k : String) (v : Record) :
    (set_namespaced s ns k v).libraries? = s.libraries? := rfl

theorem get_namespaced_set_namespaced_same (s : State) (ns k : String) (v dflt : Record) :
    get_namespaced (set_namespaced s ns k v) ns k dflt = v := by
  simp [get_namespaced, set_namespaced, alLookup_alInsert_self]

theorem noLegacy_set_namespaced (db : Db) (s : State) (ns k : String) (v : Record)
    (h : noLegacy db s) : noLegacy db (set_namespaced s ns k v) :=
  fun L hL => h L hL

/- Unfolding lemmas for the embedded functions. -/

theorem migrate_of_current (db : Db) (cfg : Record) (s : State)
    (h : isCurrentSchema (alGetD cfg KEY_SCHEMA_VERSION (Value.int 0)) = true) :
    migrate_library_config_if_required db cfg s = (cfg, s) := by
  simp [migrate_library_config_if_required, h]

theorem migrate_of_not_current (db : Db) (cfg : Record) (s : State)
    (h : isCurrentSchema (alGetD cfg KEY_SCHEMA_VERSION (Value.int 0)) = false) :
    migrate_library_config_if_required db cfg s =
      (alInsert KEY_SCHEMA_VERSION (Value.flt DEFAULT_SCHEMA_VERSION) cfg,
       set_library_config db
         (alInsert KEY_SCHEMA_VERSION (Value.flt DEFAULT_SCHEMA_VERSION) cfg) s) := by
  simp [migrate_library_config_if_required, h]

theorem migrate_libraries (db : Db) (cfg : Record) (s : State) :
    (migrate_library_config_if_required db cfg s).2.libraries? = s.libraries? := by
  by_cases h : isCurrentSchema (alGetD cfg KEY_SCHEMA_VERSION (Value.int 0)) = true
  · simp [migrate_of_current db cfg s h]
  · simp [migrate_of_not_current db cfg s (by simpa using h), set_library_config,
      set_namespaced]

theorem migrate_schema (db : Db) (cfg : Record) (s : State) :
    alLookup KEY_SCHEMA_VERSION (migrate_library_config_if_required db cfg s).1 =
      some (Value.flt DEFAULT_SCHEMA_VERSION) := by
  by_cases h : isCurrentSchema (alGetD cfg KEY_SCHEMA_VERSION (Value.int 0)) = true
  · rw [migrate_of_current db cfg s h]
    have hv := (isCurrentSchema_true_iff _).mp h
    revert hv
    cases hl : alLookup KEY_SCHEMA_VERSION cfg with
    | none => simp [alGetD, hl]
    | some v => simp [alGetD, hl]
  · rw [migrate_of_not_current db cfg s (by simpa using h)]
    exact alLookup_alInsert_self _ _ _

theorem get_library_config_of_noLegacy (db : Db) (s : State) (h : noLegacy db s) :
    get_library_config db s =
      migrate_library_config_if_required db
        (get_namespaced s PREFS_NAMESPACE PREFS_KEY_SETTINGS DEFAULT_LIBRARY_VALUES) s := by
  cases s with
  | mk lib? dbp =>
    cases lib? with
    | none => rfl
    | some L =>
      have hnone := h L rfl
      simp [get_library_config, hnone]

theorem set_exemption_list_of_clean (db : Db) (s : State) (cfg : Record) (k : String)
    (v : Value) (h : noLegacy db s)
    (hcfg : get_namespaced s PREFS_NAMESPACE PREFS_KEY_SETTINGS DEFAULT_LIBRARY_VALUES = cfg)
    (hsch : isCurrentSchema (alGetD cfg KEY_SCHEMA_VERSION (Value.int 0)) = true) :
    set_exemption_list db k v s =
      set_namespaced s PREFS_NAMESPACE PREFS_KEY_SETTINGS (alInsert k v cfg) := by
  simp [set_exemption_list, get_library_config_of_noLegacy db s h, hcfg,
    migrate_of_current db cfg s hsch, set_library_config]

/- Pruning-loop lemmas. -/

theorem pruneLists_post (h : Value → Bool) (bl bl' : List Value) (c : Bool)
    (hp : pruneLists h bl = some (bl', c)) :
    ∀ l ∈ bl', ∃ xs, l = Value.arr xs ∧ ∀ v ∈ xs, h v = true := by
  induction bl generalizing bl' c with
  | nil =>
    simp [pruneLists] at hp
    obtain ⟨h1, h2⟩ := hp
    subst h1
    simp
  | cons old rest ih =>
    cases old with
    | arr ol =>
      cases hrec : pruneLists h rest with
      | none =>
        rw [pruneLists, hrec] at hp
        simp at hp
      | some pr =>
        obtain ⟨rest', ch⟩ := pr
        rw [pruneLists, hrec] at hp
        dsimp only at hp
        by_cases hlen : ol.length ≠ (ol.filter h).length
        · rw [if_pos hlen] at hp
          simp only [Option.some.injEq, Prod.mk.injEq] at hp
          obtain ⟨hbl, hc⟩ := hp
          subst hbl
          intro l hl
          rcases List.mem_cons.mp hl with hl | hl
          · exact ⟨ol.filter h, hl, fun v hv => (List.mem_filter.mp hv).2⟩
          · exact ih rest' ch hrec l hl
        · have heq : ol.length = (ol.filter h).length := not_not.mp hlen
          rw [if_neg hlen] at hp
          simp only [Option.some.injEq, Prod.mk.injEq] at hp
          obtain ⟨hbl, hc⟩ := hp
          subst hbl
          have hflt : ol.filter h = ol :=
            (List.filter_sublist ol).eq_of_length heq.symm
          intro l hl
          rcases List.mem_cons.mp hl with hl | hl
          · exact ⟨ol, hl, List.filter_eq_self.mp hflt⟩
          · exact ih rest' ch hrec l hl
    | str v => simp [pruneLists] at hp
    | int v => simp [pruneLists] at hp
    | flt v => simp [pruneLists] at hp
    | dict v => simp [pruneLists] at hp

theorem pruneLists_noop (h : Value → Bool) (bl : List Value)
    (hv : ∀ l ∈ bl, ∃ xs, l = Value.arr xs ∧ ∀ v ∈ xs, h v = true) :
    pruneLists h bl = some (bl, false) := by
  induction bl with
  | nil => simp [pruneLists]
  | cons old rest ih =>
    obtain ⟨xs, hxs, hval⟩ := hv old (List.mem_cons_self old rest)
    subst hxs
    have hrec : pruneLists h rest = some (rest, false) :=
      ih fun l hl => hv l (List.mem_cons_of_mem _ hl)
    have hflt : xs.filter h = xs := List.filter_eq_self.mpr hval
    rw [pruneLists, hrec]
    simp [hflt]

theorem pruneLists_unchanged (h : Value → Bool) (bl bl' : List Value)
    (hp : pruneLists h bl = some (bl', false)) : bl' = bl := by
  induction bl generalizing bl' with
  | nil =>
    simp [pruneLists] at hp
    exact hp
  | cons old rest ih =>
    cases old with
    | arr ol =>
      cases hrec : pruneLists h rest with
      | none =>
        rw [pruneLists, hrec] at hp
        simp at hp
      | some pr =>
        obtain ⟨rest', ch⟩ := pr
        rw [pruneLists, hrec] at hp
        dsimp only at hp
        by_cases hlen : ol.length ≠ (ol.filter h).length
        · rw [if_pos hlen] at hp
          simp only [Option.some.injEq, Prod.mk.injEq] at hp
          exact absurd hp.2 (by simp)
        · rw [if_neg hlen] at hp
          simp only [Option.some.injEq, Prod.mk.injEq] at hp
          obtain ⟨hbl, hc⟩ := hp
          subst hc
          rw [← hbl, ih rest' hrec]
    | str v => simp [pruneLists] at hp
    | int v => simp [pruneLists] at hp
    | flt v => simp [pruneLists] at hp
    | dict v => simp [pruneLists] at hp

/-- On a clean state, whose effective record has the current schema
version, no legacy v1.0 keys, and only valid book-exemption ids,
get_exemption_lists reads and returns without writing anything. -/
theorem get_exemption_lists_clean (db : Db) (s : State) (R : Record) (bl : List Value)
    (hnl : noLegacy db s)
    (hR : get_namespaced s PREFS_NAMESPACE PREFS_KEY_SETTINGS DEFAULT_LIBRARY_VALUES = R)
    (hsch : alGetD R KEY_SCHEMA_VERSION (Value.int 0) = Value.flt DEFAULT_SCHEMA_VERSION)
    (hbnd : alContains KEY_BOOK_NOT_DUPLICATES R = false)
    (hand : alContains KEY_AUTHOR_NOT_DUPLICATES R = false)
    (hbe : alGetD R KEY_BOOK_EXEMPTIONS (Value.arr []) = Value.arr bl)
    (hvalid : ∀ l ∈ bl, ∃ xs, l = Value.arr xs ∧ ∀ v ∈ xs, db.hasId v = true) :
    get_exemption_lists db s =
      some ((bl, alGetD R KEY_AUTHOR_EXEMPTIONS (Value.arr [])), s) := by
  have hcur : isCurrentSchema (alGetD R KEY_SCHEMA_VERSION (Value.int 0)) = true := by
    rw [hsch]
    exact isCurrentSchema_default
  have h1 : get_library_config db s = (R, s) := by
    rw [get_library_config_of_noLegacy db s hnl, hR, migrate_of_current db R s hcur]
  have h2 : dropLegacyBook db R s = (R, s) := by
    simp [dropLegacyBook, hbnd]
  have h3 : dropLegacyAuthor db R s = (R, s) := by
    simp [dropLegacyAuthor, hand]
  simp only [get_exemption_lists, h1, exemption_tail, h2, h3, hbe,
    pruneLists_noop db.hasId bl hvalid]
  simp

/- Helper lemmas about get_library_config. -/

theorem value_int_ne_flt (n : Int) (q : Rat) : Value.int n ≠ Value.flt q :=
  fun h => Value.noConfusion h

theorem alContains_alErase_ne {κ α : Type} [DecidableEq κ] (k k' : κ)
    (d : List (κ × α)) (h : k' ≠ k) :
    alContains k (alErase k' d) = alContains k d := by
  simp [alContains, alLookup_alErase_ne k k' d h]

theorem alGetD_alErase_ne {κ α : Type} [DecidableEq κ] (k k' : κ) (dflt : α)
    (d : List (κ × α)) (h : k' ≠ k) :
    alGetD (alErase k' d) k dflt = alGetD d k dflt := by
  simp [alGetD, alLookup_alErase_ne k k' d h]

theorem alGetD_of_lookup {κ α : Type} [DecidableEq κ] (k : κ) (v dflt : α)
    (d : List (κ × α)) (h : alLookup k d = some v) :
    alGetD d k dflt = v := by
  simp [alGetD, h]

/-- The record produced by get_library_config always carries the
schema-version entry 1.5, whatever the starting state. -/
theorem glc_schema (db : Db) (s : State) :
    alLookup KEY_SCHEMA_VERSION (get_library_config db s).1 =
      some (Value.flt DEFAULT_SCHEMA_VERSION) := by
  cases s with
  | mk lib? dbp =>
    cases lib? with
    | none => exact migrate_schema db _ _
    | some L =>
      cases hL : alLookup (get_library_uuid db) L with
      | none =>
        simp only [get_library_config, hL]
        exact migrate_schema db _ _
      | some cfg =>
        simp only [get_library_config, hL]
        by_cases hlen : (alErase (get_library_uuid db) L).length = 0
        · rw [if_pos hlen]
          exact migrate_schema db _ _
        · rw [if_neg hlen]
          exact migrate_schema db _ _

theorem glc_schema_getD (db : Db) (s : State) :
    alGetD (get_library_config db s).1 KEY_SCHEMA_VERSION (Value.int 0) =
      Value.flt DEFAULT_SCHEMA_VERSION :=
  alGetD_of_lookup _ _ _ _ (glc_schema db s)

theorem glc_schema_current (db : Db) (s : State) :
    isCurrentSchema
      (alGetD (get_library_config db s).1 KEY_SCHEMA_VERSION (Value.int 0)) = true := by
  rw [glc_schema_getD db s]
  exact isCurrentSchema_default

theorem glc_libraries_of_noLegacy (db : Db) (s : State) (h : noLegacy db s) :
    ((get_library_config db s).2).libraries? = s.libraries? := by
  rw [get_library_config_of_noLegacy db s h]
  exact migrate_libraries db _ s

theorem noLegacy_glc (db : Db) (s : State) (h : noLegacy db s) :
    noLegacy db (get_library_config db s).2 := by
  intro L hL
  rw [glc_libraries_of_noLegacy db s h] at hL
  exact h L hL

/-- On a state whose effective stored record already has schema 1.5 and
whose uuid has no legacy JSON entry, get_library_config just returns the
record and changes nothing. -/
theorem glc_of_clean (db : Db) (s : State) (cfg : Record) (hnl : noLegacy db s)
    (hcfg : get_namespaced s PREFS_NAMESPACE PREFS_KEY_SETTINGS DEFAULT_LIBRARY_VALUES = cfg)
    (hsch : isCurrentSchema (alGetD cfg KEY_SCHEMA_VERSION (Value.int 0)) = true) :
    get_library_config db s = (cfg, s) := by
  rw [get_library_config_of_noLegacy db s hnl, hcfg, migrate_of_current db cfg s hsch]

/-- After get_library_config, the effective stored record of the new
state is exactly the returned record. -/
theorem glc_view (db : Db) (s : State) (hnl : noLegacy db s) :
    get_namespaced (get_library_config db s).2 PREFS_NAMESPACE PREFS_KEY_SETTINGS
      DEFAULT_LIBRARY_VALUES = (get_library_config db s).1 := by
  rw [get_library_config_of_noLegacy db s hnl]
  by_cases h : isCurrentSchema
      (alGetD (get_namespaced s PREFS_NAMESPACE PREFS_KEY_SETTINGS DEFAULT_LIBRARY_VALUES)
        KEY_SCHEMA_VERSION (Value.int 0)) = true
  · rw [migrate_of_current db _ s h]
  · rw [migrate_of_not_current db _ s (by simpa using h)]
    exact get_namespaced_set_namespaced_same s _ _ _ _

theorem get_exemption_lists_eq_tail (db : Db) (s : State) :
    get_exemption_lists db s =
      exemption_tail db (get_library_config db s).1 (get_library_config db s).2 := by
  rcases h : get_library_config db s with ⟨cfg, s1⟩
  simp [get_exemption_lists, h]

/-- Under no legacy entry, get_exemption_lists behaves as if started
from the state left by its initial get_library_config. -/
theorem get_exemption_lists_restart (db : Db) (s : State) (hnl : noLegacy db s) :
    get_exemption_lists db s = get_exemption_lists db (get_library_config db s).2 := by
  rw [get_exemption_lists_eq_tail db s, get_exemption_lists_eq_tail db _,
    glc_of_clean db (get_library_config db s).2 (get_library_config db s).1
      (noLegacy_glc db s hnl) (glc_view db s hnl) (glc_schema_current db s)]

/-- Core behaviour on a clean-schema record holding both v1.0 legacy
keys and neither new exemption key: both legacy maps are discarded,
empty lists are stored, the returned lists are empty, and the stored
record still carries both legacy keys. -/
theorem exemption_legacy_core (db : Db) (s : State) (cfg : Record)
    (hnl : noLegacy db s)
    (hcfg : get_namespaced s PREFS_NAMESPACE PREFS_KEY_SETTINGS DEFAULT_LIBRARY_VALUES = cfg)
    (hsch : isCurrentSchema (alGetD cfg KEY_SCHEMA_VERSION (Value.int 0)) = true)
    (hb : alContains KEY_BOOK_NOT_DUPLICATES cfg = true)
    (ha : alContains KEY_AUTHOR_NOT_DUPLICATES cfg = true)
    (hbe : alContains KEY_BOOK_EXEMPTIONS cfg = false)
    (hae : alContains KEY_AUTHOR_EXEMPTIONS cfg = false) :
    get_exemption_lists db s =
      some ((([] : List Value), Value.arr []),
        set_namespaced
          (set_namespaced s PREFS_NAMESPACE PREFS_KEY_SETTINGS
            (alInsert KEY_BOOK_EXEMPTIONS (Value.arr []) cfg))
          PREFS_NAMESPACE PREFS_KEY_SETTINGS
          (alInsert KEY_AUTHOR_EXEMPTIONS (Value.arr [])
            (alInsert KEY_BOOK_EXEMPTIONS (Value.arr []) cfg))) := by
  have hBneqS : KEY_BOOK_EXEMPTIONS ≠ KEY_SCHEMA_VERSION := by decide
  have hBneqBN : KEY_BOOK_EXEMPTIONS ≠ KEY_BOOK_NOT_DUPLICATES := by decide
  have hBneqAN : KEY_BOOK_EXEMPTIONS ≠ KEY_AUTHOR_NOT_DUPLICATES := by decide
  have hBNneqAN : KEY_BOOK_NOT_DUPLICATES ≠ KEY_AUTHOR_NOT_DUPLICATES := by decide
  have hBNneqB : KEY_BOOK_NOT_DUPLICATES ≠ KEY_BOOK_EXEMPTIONS := by decide
  have hBNneqA : KEY_BOOK_NOT_DUPLICATES ≠ KEY_AUTHOR_EXEMPTIONS := by decide
  have hANneqB : KEY_AUTHOR_NOT_DUPLICATES ≠ KEY_BOOK_EXEMPTIONS := by decide
  have hANneqA : KEY_AUTHOR_NOT_DUPLICATES ≠ KEY_AUTHOR_EXEMPTIONS := by decide
  set R1 := alInsert KEY_BOOK_EXEMPTIONS (Value.arr []) cfg with hR1
  set R2 := alInsert KEY_AUTHOR_EXEMPTIONS (Value.arr []) R1 with hR2
  set sb := set_namespaced s PREFS_NAMESPACE PREFS_KEY_SETTINGS R1 with hsb
  have h1 : get_library_config db s = (cfg, s) := glc_of_clean db s cfg hnl hcfg hsch
  -- the first legacy branch
  have hselb : set_exemption_list db KEY_BOOK_EXEMPTIONS (Value.arr []) s = sb :=
    set_exemption_list_of_clean db s cfg KEY_BOOK_EXEMPTIONS (Value.arr []) hnl hcfg hsch
  have h2 : dropLegacyBook db cfg s = (alErase KEY_BOOK_NOT_DUPLICATES cfg, sb) := by
    simp [dropLegacyBook, hb, hselb]
  -- the second legacy branch, acting on a state storing R1
  have hnlb : noLegacy db sb := noLegacy_set_namespaced db s _ _ _ hnl
  have hviewb : get_namespaced sb PREFS_NAMESPACE PREFS_KEY_SETTINGS DEFAULT_LIBRARY_VALUES
      = R1 := get_namespaced_set_namespaced_same s _ _ _ _
  have hschR1 : isCurrentSchema (alGetD R1 KEY_SCHEMA_VERSION (Value.int 0)) = true := by
    rw [hR1, alGetD_alInsert_ne _ _ _ _ _ hBneqS]
    exact hsch
  have hsela : set_exemption_list db KEY_AUTHOR_EXEMPTIONS (Value.arr []) sb =
      set_namespaced sb PREFS_NAMESPACE PREFS_KEY_SETTINGS R2 :=
    set_exemption_list_of_clean db sb R1 KEY_AUTHOR_EXEMPTIONS (Value.arr []) hnlb hviewb hschR1
  have haerase : alContains KEY_AUTHOR_NOT_DUPLICATES (alErase KEY_BOOK_NOT_DUPLICATES cfg)
      = true := by
    rw [alContains_alErase_ne _ _ _ hBNneqAN]
    exact ha
  have h3 : dropLegacyAuthor db (alErase KEY_BOOK_NOT_DUPLICATES cfg) sb =
      (alErase KEY_AUTHOR_NOT_DUPLICATES (alErase KEY_BOOK_NOT_DUPLICATES cfg),
       set_namespaced sb PREFS_NAMESPACE PREFS_KEY_SETTINGS R2) := by
    simp [dropLegacyAuthor, haerase, hsela]
  -- the local record after both deletions holds neither exemption key
  have hbe2 : alGetD (alErase KEY_AUTHOR_NOT_DUPLICATES (alErase KEY_BOOK_NOT_DUPLICATES cfg))
      KEY_BOOK_EXEMPTIONS (Value.arr []) = Value.arr [] := by
    rw [alGetD_alErase_ne _ _ _ _ hANneqB, alGetD_alErase_ne _ _ _ _ hBNneqB]
    cases hl : alLookup KEY_BOOK_EXEMPTIONS cfg with
    | none => simp [alGetD, hl]
    | some v => simp [alContains, hl] at hbe
  have hae2 : alGetD (alErase KEY_AUTHOR_NOT_DUPLICATES (alErase KEY_BOOK_NOT_DUPLICATES cfg))
      KEY_AUTHOR_EXEMPTIONS (Value.arr []) = Value.arr [] := by
    rw [alGetD_alErase_ne _ _ _ _ hANneqA, alGetD_alErase_ne _ _ _ _ hBNneqA]
    cases hl : alLookup KEY_AUTHOR_EXEMPTIONS cfg with
    | none => simp [alGetD, hl]
    | some v => simp [alContains, hl] at hae
  rw [get_exemption_lists_eq_tail db s, h1]
  simp only [exemption_tail, h2, h3, hbe2]
  simp [pruneLists, hae2]

theorem glc_libraries_none (db : Db) (s : State) (h : s.libraries? = none) :
    ((get_library_config db s).2).libraries? = none := by
  cases s with
  | mk lib? dbp =>
    dsimp only at h
    subst h
    simp only [get_library_config]
    rw [migrate_libraries]

/- Claim theorems. -/

/-- C4: when the SchemaVersion entry of library_config already equals
1.5, migrate_library_config_if_required returns without modifying the
record and without writing to the per-library store: record and state
come back unchanged. -/
theorem C4_migrate_is_noop_when_current (db : Db) (library_config : Record) (s : State)
    (h : alGetD library_config KEY_SCHEMA_VERSION (Value.int 0) =
      Value.flt DEFAULT_SCHEMA_VERSION) :
    migrate_library_config_if_required db library_config s = (library_config, s) :=
  migrate_of_current db library_config s (by rw [h]; exact isCurrentSchema_default)

/-- C4 witness at a concrete record carrying SchemaVersion 1.5. -/
theorem C4_witness :
    alGetD c4cfg KEY_SCHEMA_VERSION (Value.int 0) = Value.flt DEFAULT_SCHEMA_VERSION
    ∧ migrate_library_config_if_required c4db c4cfg c4s = (c4cfg, c4s) :=
  ⟨by with_unfolding_all rfl,
   C4_migrate_is_noop_when_current c4db c4cfg c4s (by with_unfolding_all rfl)⟩

/-- C8: the record returned by get_library_config always maps
SchemaVersion to 1.5 (DEFAULT_SCHEMA_VERSION), whatever schema version,
including none, the stored or legacy record carried. -/
theorem C8_schema_invariant (db : Db) (s : State) :
    alLookup KEY_SCHEMA_VERSION (get_library_config db s).1 =
      some (Value.flt DEFAULT_SCHEMA_VERSION) :=
  glc_schema db s

/-- C6: with no record stored under the plugin namespace and settings
key and no legacy entry for the uuid of db, get_library_config returns
the default record and get_exemption_lists returns a pair of empty
lists (and neither call changes the state). -/
theorem C6_defaults (db : Db) (s : State)
    (hnl : noLegacy db s)
    (hst : alLookup (PREFS_NAMESPACE, PREFS_KEY_SETTINGS) s.dbPrefs = none) :
    (get_library_config db s).1 = DEFAULT_LIBRARY_VALUES
    ∧ get_exemption_lists db s = some ((([] : List Value), Value.arr []), s) := by
  have hR : get_namespaced s PREFS_NAMESPACE PREFS_KEY_SETTINGS DEFAULT_LIBRARY_VALUES
      = DEFAULT_LIBRARY_VALUES := by
    simp [get_namespaced, hst]
  have hsch : alGetD DEFAULT_LIBRARY_VALUES KEY_SCHEMA_VERSION (Value.int 0)
      = Value.flt DEFAULT_SCHEMA_VERSION := by with_unfolding_all rfl
  constructor
  · rw [glc_of_clean db s DEFAULT_LIBRARY_VALUES hnl hR
      (by rw [hsch]; exact isCurrentSchema_default)]
  · have hc := get_exemption_lists_clean db s DEFAULT_LIBRARY_VALUES [] hnl hR hsch
      (by with_unfolding_all rfl) (by with_unfolding_all rfl) (by with_unfolding_all rfl)
      (by simp)
    rw [hc,
      (by with_unfolding_all rfl :
        alGetD DEFAULT_LIBRARY_VALUES KEY_AUTHOR_EXEMPTIONS (Value.arr []) = Value.arr [])]

/-- C6 witness at the empty host state. -/
theorem C6_witness :
    (get_library_config c6db c6s).1 = DEFAULT_LIBRARY_VALUES
    ∧ get_exemption_lists c6db c6s = some ((([] : List Value), Value.arr []), c6s) :=
  C6_defaults c6db c6s (by intro L h; simp [c6s] at h) (by with_unfolding_all rfl)

/-- C7: with no legacy entry for the uuid of db, after
set_exemption_list db k v for an exemption key k, the record returned
by get_library_config maps k to exactly v: the save overwrites. -/
theorem C7_round_trip (db : Db) (s : State) (k : String) (v : Value)
    (hnl : noLegacy db s)
    (hk : k = KEY_BOOK_EXEMPTIONS ∨ k = KEY_AUTHOR_EXEMPTIONS) :
    alLookup k (get_library_config db (set_exemption_list db k v s)).1 = some v := by
  have hkS : k ≠ KEY_SCHEMA_VERSION := by
    rcases hk with hk | hk <;> subst hk <;> decide
  rcases hgc : get_library_config db s with ⟨cfg0, s0⟩
  have hsel : set_exemption_list db k v s =
      set_library_config db (alInsert k v cfg0) s0 := by
    simp [set_exemption_list, hgc]
  have hs0lib : s0.libraries? = s.libraries? := by
    have h := glc_libraries_of_noLegacy db s hnl
    rw [hgc] at h
    exact h
  have hnl1 : noLegacy db (set_library_config db (alInsert k v cfg0) s0) := by
    intro L hL
    simp only [set_library_config, libraries_set_namespaced] at hL
    rw [hs0lib] at hL
    exact hnl L hL
  have hview : get_namespaced (set_library_config db (alInsert k v cfg0) s0)
      PREFS_NAMESPACE PREFS_KEY_SETTINGS DEFAULT_LIBRARY_VALUES = alInsert k v cfg0 :=
    get_namespaced_set_namespaced_same s0 _ _ _ _
  have hsch0 : alGetD cfg0 KEY_SCHEMA_VERSION (Value.int 0) =
      Value.flt DEFAULT_SCHEMA_VERSION := by
    have h := glc_schema_getD db s
    rw [hgc] at h
    exact h
  have hsch1 : isCurrentSchema
      (alGetD (alInsert k v cfg0) KEY_SCHEMA_VERSION (Value.int 0)) = true := by
    rw [alGetD_alInsert_ne KEY_SCHEMA_VERSION k v (Value.int 0) cfg0 hkS, hsch0]
    exact isCurrentSchema_default
  rw [hsel, glc_of_clean db _ (alInsert k v cfg0) hnl1 hview hsch1]
  exact alLookup_alInsert_self k v cfg0

/-- C7 witness: a book-exemption list round trips through the store. -/
theorem C7_witness :
    noLegacy c7db c7s
    ∧ alLookup KEY_BOOK_EXEMPTIONS
        (get_library_config c7db (set_exemption_list c7db KEY_BOOK_EXEMPTIONS c7v c7s)).1
      = some c7v :=
  ⟨by intro L h; simp [c7s] at h,
   C7_round_trip c7db c7s KEY_BOOK_EXEMPTIONS c7v (by intro L h; simp [c7s] at h)
     (Or.inl rfl)⟩

/-- C3: every book id appearing in any group of the book-exemptions
list returned by get_exemption_lists passes db.data.has_id: ids absent
from the library are filtered out of every returned group. -/
theorem C3_stale_ids_pruned (db : Db) (s : State) (books : List Value) (authors : Value)
    (s1 : State) (h : get_exemption_lists db s = some ((books, authors), s1)) :
    ∀ xs, Value.arr xs ∈ books → ∀ v ∈ xs, db.hasId v = true := by
  rw [get_exemption_lists_eq_tail db s] at h
  simp only [exemption_tail] at h
  rcases hdb : dropLegacyBook db (get_library_config db s).1 (get_library_config db s).2
    with ⟨cfg1, sA⟩
  rw [hdb] at h
  dsimp only at h
  rcases hda : dropLegacyAuthor db cfg1 sA with ⟨cfg2, sB⟩
  rw [hda] at h
  dsimp only at h
  cases hget : alGetD cfg2 KEY_BOOK_EXEMPTIONS (Value.arr []) with
  | arr bl =>
    rw [hget] at h
    dsimp only at h
    cases hpr : pruneLists db.hasId bl with
    | none =>
      rw [hpr] at h
      simp at h
    | some pr =>
      obtain ⟨pruned, ch⟩ := pr
      rw [hpr] at h
      dsimp only at h
      cases ch with
      | false =>
        simp only [Bool.false_eq_true, if_false, Option.some.injEq, Prod.mk.injEq] at h
        obtain ⟨⟨h1, h2⟩, h3⟩ := h
        subst h1
        intro xs hxs v hv
        obtain ⟨ys, hys, hval⟩ :=
          pruneLists_post db.hasId bl pruned false hpr (Value.arr xs) hxs
        injection hys with h4
        subst h4
        exact hval v hv
      | true =>
        simp only [if_true, Option.some.injEq, Prod.mk.injEq] at h
        obtain ⟨⟨h1, h2⟩, h3⟩ := h
        subst h1
        intro xs hxs v hv
        have hmem : Value.arr xs ∈ pruned := (List.mem_filter.mp hxs).1
        obtain ⟨ys, hys, hval⟩ :=
          pruneLists_post db.hasId bl pruned true hpr (Value.arr xs) hmem
        injection hys with h4
        subst h4
        exact hval v hv
  | str v =>
    rw [hget] at h
    simp at h
  | int v =>
    rw [hget] at h
    simp at h
  | flt v =>
    rw [hget] at h
    simp at h
  | dict v =>
    rw [hget] at h
    simp at h

/-- C3 witness: a concrete call whose returned group keeps only ids the
library has. -/
theorem C3_witness :
    get_exemption_lists c3db c3s =
      some (([Value.arr [Value.int 1]], Value.arr []), c3s)
    ∧ ∀ xs, Value.arr xs ∈ [Value.arr [Value.int 1]] → ∀ v ∈ xs, c3db.hasId v = true :=
  ⟨by with_unfolding_all rfl,
   C3_stale_ids_pruned c3db c3s [Value.arr [Value.int 1]] (Value.arr []) c3s
     (by with_unfolding_all rfl)⟩

/-- C1 counterexample: the legacy JSON map holds an entry for the uuid
of the db whose record already carries SchemaVersion 1.5; after
get_library_config the per-library store still holds no record at all,
so the record taken from the JSON file was not written to db.prefs. -/
theorem C1_counterexample :
    alLookup (get_library_uuid c1db) [(uuidA, c1cfg)] = some c1cfg
    ∧ alLookup (PREFS_NAMESPACE, PREFS_KEY_SETTINGS)
        ((get_library_config c1db c1s).2).dbPrefs = none :=
  ⟨by with_unfolding_all rfl, by with_unfolding_all rfl⟩

/-- C1 amended: when the legacy JSON entry for the uuid of db holds a
record whose SchemaVersion is not already 1.5, get_library_config
writes that record, with SchemaVersion set to 1.5, into db.prefs under
the plugin namespace and settings key, preserving its exemption
entries. -/
theorem C1_migrates_record (db : Db) (s : State) (L : List (String × Record)) (cfg : Record)
    (hL : s.libraries? = some L)
    (hc : alLookup (get_library_uuid db) L = some cfg)
    (hsch : alGetD cfg KEY_SCHEMA_VERSION (Value.int 0) ≠ Value.flt DEFAULT_SCHEMA_VERSION) :
    alLookup (PREFS_NAMESPACE, PREFS_KEY_SETTINGS) ((get_library_config db s).2).dbPrefs
      = some (alInsert KEY_SCHEMA_VERSION (Value.flt DEFAULT_SCHEMA_VERSION) cfg) := by
  have hns : isCurrentSchema (alGetD cfg KEY_SCHEMA_VERSION (Value.int 0)) = false := by
    cases hI : isCurrentSchema (alGetD cfg KEY_SCHEMA_VERSION (Value.int 0)) with
    | false => rfl
    | true => exact absurd ((isCurrentSchema_true_iff _).mp hI) hsch
  cases s with
  | mk lib? dbp =>
    dsimp only at hL
    subst hL
    simp only [get_library_config, hc]
    by_cases hlen : (alErase (get_library_uuid db) L).length = 0
    · rw [if_pos hlen, migrate_of_not_current db cfg _ hns]
      exact alLookup_alInsert_self _ _ _
    · rw [if_neg hlen, migrate_of_not_current db cfg _ hns]
      exact alLookup_alInsert_self _ _ _

/-- C1 witness: a legacy record with no SchemaVersion entry is migrated
into the store with SchemaVersion added. -/
theorem C1_witness :
    c1ws.libraries? = some [(uuidB, c1wcfg)]
    ∧ alGetD c1wcfg KEY_SCHEMA_VERSION (Value.int 0) ≠ Value.flt DEFAULT_SCHEMA_VERSION
    ∧ alLookup (PREFS_NAMESPACE, PREFS_KEY_SETTINGS)
        ((get_library_config c1wdb c1ws).2).dbPrefs
      = some (alInsert KEY_SCHEMA_VERSION (Value.flt DEFAULT_SCHEMA_VERSION) c1wcfg) := by
  have hget : alGetD c1wcfg KEY_SCHEMA_VERSION (Value.int 0) = Value.int 0 := by
    with_unfolding_all rfl
  refine ⟨by with_unfolding_all rfl, ?_, ?_⟩
  · rw [hget]
    exact value_int_ne_flt 0 DEFAULT_SCHEMA_VERSION
  · refine C1_migrates_record c1wdb c1ws [(uuidB, c1wcfg)] c1wcfg
      (by with_unfolding_all rfl) (by with_unfolding_all rfl) ?_
    rw [hget]
    exact value_int_ne_flt 0 DEFAULT_SCHEMA_VERSION

/-- C2: the legacy migration is one-time: after get_library_config the
uuid of db is no longer a key of the legacy libraries map, the
libraries key itself is gone when that uuid was its last entry, and a
second call leaves the legacy JSON state untouched. -/
theorem C2_one_time_migration (db : Db) (s : State) :
    (∀ L1, ((get_library_config db s).2).libraries? = some L1 →
      alLookup (get_library_uuid db) L1 = none)
    ∧ (∀ L, s.libraries? = some L → alLookup (get_library_uuid db) L ≠ none →
      alErase (get_library_uuid db) L = [] →
      ((get_library_config db s).2).libraries? = none)
    ∧ ((get_library_config db (get_library_config db s).2).2).libraries?
      = ((get_library_config db s).2).libraries? := by
  cases s with
  | mk lib? dbp =>
    cases lib? with
    | none =>
      have hres : ((get_library_config db (State.mk none dbp)).2).libraries? = none := by
        simp only [get_library_config]
        rw [migrate_libraries]
      refine ⟨?_, ?_, ?_⟩
      · intro L1 h1
        rw [hres] at h1
        exact Option.noConfusion h1
      · intro L hL
        exact absurd hL (by simp)
      · rw [glc_libraries_none db _ hres, hres]
    | some L =>
      cases hc : alLookup (get_library_uuid db) L with
      | none =>
        have hres : ((get_library_config db (State.mk (some L) dbp)).2).libraries?
            = some L := by
          simp only [get_library_config, hc]
          rw [migrate_libraries]
        have hnl1 : noLegacy db (get_library_config db (State.mk (some L) dbp)).2 := by
          intro L1 h1
          rw [hres] at h1
          injection h1 with h2
          subst h2
          exact hc
        refine ⟨?_, ?_, ?_⟩
        · intro L1 h1
          rw [hres] at h1
          injection h1 with h2
          subst h2
          exact hc
        · intro L1 hL1 hne
          dsimp only at hL1
          injection hL1 with h2
          subst h2
          exact absurd hc hne
        · rw [glc_libraries_of_noLegacy db _ hnl1]
      | some cfg =>
        by_cases hlen : (alErase (get_library_uuid db) L).length = 0
        · have hres : ((get_library_config db (State.mk (some L) dbp)).2).libraries?
              = none := by
            simp only [get_library_config, hc]
            rw [if_pos hlen, migrate_libraries]
          refine ⟨?_, ?_, ?_⟩
          · intro L1 h1
            rw [hres] at h1
            exact Option.noConfusion h1
          · intro L1 hL1 hne hemp
            exact hres
          · rw [glc_libraries_none db _ hres, hres]
        · have hres : ((get_library_config db (State.mk (some L) dbp)).2).libraries?
              = some (alErase (get_library_uuid db) L) := by
            simp only [get_library_config, hc]
            rw [if_neg hlen, migrate_libraries]
          have hnl1 : noLegacy db (get_library_config db (State.mk (some L) dbp)).2 := by
            intro L1 h1
            rw [hres] at h1
            injection h1 with h2
            subst h2
            exact alLookup_alErase_self _ _
          refine ⟨?_, ?_, ?_⟩
          · intro L1 h1
            rw [hres] at h1
            injection h1 with h2
            subst h2
            exact alLookup_alErase_self _ _
          · intro L1 hL1 hne hemp
            dsimp only at hL1
            injection hL1 with h2
            subst h2
            exact absurd (by rw [hemp]; rfl) hlen
          · rw [glc_libraries_of_noLegacy db _ hnl1]

/-- C2 witness: a legacy map whose only entry is the uuid of db is
removed whole, and a second call changes nothing. -/
theorem C2_witness :
    ((get_library_config c2db c2s).2).libraries? = none
    ∧ ((get_library_config c2db (get_library_config c2db c2s).2).2).libraries?
      = ((get_library_config c2db c2s).2).libraries? := by
  refine ⟨?_, (C2_one_time_migration c2db c2s).2.2⟩
  refine (C2_one_time_migration c2db c2s).2.1 [(uuidA, c2cfg)]
    (by with_unfolding_all rfl) ?_ (by with_unfolding_all rfl)
  rw [(by with_unfolding_all rfl :
    alLookup (get_library_uuid c2db) [(uuidA, c2cfg)] = some c2cfg)]
  simp

/-- C10 counterexample: with the v1.0 key authorNotDuplicates present
in the stored record, get_exemption_lists does write back to the stored
authorExemptions value: the store ends up holding an empty list where
it held a non-empty one, refuting the no-write-back part of the claim
(the returned author list is still the original stored value). -/
theorem C10_counterexample :
    alLookup KEY_AUTHOR_EXEMPTIONS c10R = some c10X
    ∧ get_exemption_lists c10db c10s = some ((([] : List Value), c10X), c10s1)
    ∧ alLookup (PREFS_NAMESPACE, PREFS_KEY_SETTINGS) c10s1.dbPrefs = some c10R1
    ∧ alLookup KEY_AUTHOR_EXEMPTIONS c10R1 = some (Value.arr [])
    ∧ c10X ≠ Value.arr [] := by
  refine ⟨by with_unfolding_all rfl, by with_unfolding_all rfl, by with_unfolding_all rfl,
    by with_unfolding_all rfl, ?_⟩
  intro h
  simp [c10X] at h

/-- C10 amended: for a stored record at schema 1.5 without the v1.0
legacy keys, whenever get_exemption_lists returns, the returned author
value is the stored authorExemptions value verbatim, with no filtering,
and the stored authorExemptions binding is unchanged by the call, even
when book pruning removes ids and writes the pruned groups back; and
when no book id is removed by pruning, the stored book groups are
returned verbatim (empty groups included) and the state is unchanged
entirely. -/
theorem C10_author_frame (db : Db) (s : State) (R : Record) (bl : List Value)
    (hnl : noLegacy db s)
    (hst : alLookup (PREFS_NAMESPACE, PREFS_KEY_SETTINGS) s.dbPrefs = some R)
    (hsch : alGetD R KEY_SCHEMA_VERSION (Value.int 0) = Value.flt DEFAULT_SCHEMA_VERSION)
    (hbnd : alContains KEY_BOOK_NOT_DUPLICATES R = false)
    (hand : alContains KEY_AUTHOR_NOT_DUPLICATES R = false)
    (hbe : alGetD R KEY_BOOK_EXEMPTIONS (Value.arr []) = Value.arr bl) :
    ∀ books authors s1, get_exemption_lists db s = some ((books, authors), s1) →
      authors = alGetD R KEY_AUTHOR_EXEMPTIONS (Value.arr [])
      ∧ (∀ R1, alLookup (PREFS_NAMESPACE, PREFS_KEY_SETTINGS) s1.dbPrefs = some R1 →
          alLookup KEY_AUTHOR_EXEMPTIONS R1 = alLookup KEY_AUTHOR_EXEMPTIONS R)
      ∧ ((∀ l ∈ bl, ∃ xs, l = Value.arr xs ∧ ∀ v ∈ xs, db.hasId v = true) →
          books = bl ∧ s1 = s) := by
  have hBneqA : KEY_BOOK_EXEMPTIONS ≠ KEY_AUTHOR_EXEMPTIONS := by decide
  have hview : get_namespaced s PREFS_NAMESPACE PREFS_KEY_SETTINGS DEFAULT_LIBRARY_VALUES
      = R := by
    simp [get_namespaced, hst]
  have hcur : isCurrentSchema (alGetD R KEY_SCHEMA_VERSION (Value.int 0)) = true := by
    rw [hsch]
    exact isCurrentSchema_default
  have hglc : get_library_config db s = (R, s) := glc_of_clean db s R hnl hview hcur
  have h2 : dropLegacyBook db R s = (R, s) := by
    simp [dropLegacyBook, hbnd]
  have h3 : dropLegacyAuthor db R s = (R, s) := by
    simp [dropLegacyAuthor, hand]
  intro books authors s1 h
  rw [get_exemption_lists_eq_tail db s, hglc] at h
  simp only [exemption_tail, h2, h3] at h
  rw [hbe] at h
  dsimp only at h
  cases hpr : pruneLists db.hasId bl with
  | none =>
    rw [hpr] at h
    simp at h
  | some pr =>
    obtain ⟨pruned, ch⟩ := pr
    rw [hpr] at h
    dsimp only at h
    cases ch with
    | false =>
      simp only [Bool.false_eq_true, if_false, Option.some.injEq, Prod.mk.injEq] at h
      obtain ⟨⟨hbq, haq⟩, hsq⟩ := h
      have hbl : pruned = bl := pruneLists_unchanged db.hasId bl pruned hpr
      refine ⟨haq.symm, ?_, ?_⟩
      · intro R1 hR1
        rw [← hsq, hst] at hR1
        injection hR1 with h4
        subst h4
        rfl
      · intro _
        exact ⟨hbq.symm.trans hbl, hsq.symm⟩
    | true =>
      simp only [if_true, Option.some.injEq, Prod.mk.injEq] at h
      obtain ⟨⟨hbq, haq⟩, hsq⟩ := h
      have hsel : set_exemption_list db KEY_BOOK_EXEMPTIONS
          (Value.arr (pruned.filter isNonEmptyArr)) s =
          set_namespaced s PREFS_NAMESPACE PREFS_KEY_SETTINGS
            (alInsert KEY_BOOK_EXEMPTIONS (Value.arr (pruned.filter isNonEmptyArr)) R) :=
        set_exemption_list_of_clean db s R KEY_BOOK_EXEMPTIONS _ hnl hview hcur
      rw [hsel] at hsq
      refine ⟨haq.symm, ?_, ?_⟩
      · intro R1 hR1
        rw [← hsq] at hR1
        simp only [set_namespaced] at hR1
        rw [alLookup_alInsert_self] at hR1
        injection hR1 with h4
        subst h4
        exact alLookup_alInsert_ne _ _ _ _ hBneqA
      · intro hvalid
        have hnoop := pruneLists_noop db.hasId bl hvalid
        rw [hpr] at hnoop
        injection hnoop with h5
        injection h5 with h6 h7
        exact Bool.noConfusion h7

/-- C10 witness: pruning fires (the stale id 5 is removed and the
pruned group written back), yet the author value is returned verbatim
and its stored binding is unchanged. -/
theorem C10_witness :
    get_exemption_lists c10wdb c10vs =
      some (([Value.arr [Value.int 2]], c10vX), c10vs1)
    ∧ c10vX = alGetD c10vR KEY_AUTHOR_EXEMPTIONS (Value.arr [])
    ∧ alLookup KEY_AUTHOR_EXEMPTIONS c10vR1 = alLookup KEY_AUTHOR_EXEMPTIONS c10vR := by
  have h := C10_author_frame c10wdb c10vs c10vR c10vbl
    (by intro L hL; simp [c10vs] at hL)
    (by with_unfolding_all rfl) (by with_unfolding_all rfl) (by with_unfolding_all rfl)
    (by with_unfolding_all rfl) (by with_unfolding_all rfl)
    [Value.arr [Value.int 2]] c10vX c10vs1 (by with_unfolding_all rfl)
  exact ⟨by with_unfolding_all rfl, h.1, h.2.1 c10vR1 (by with_unfolding_all rfl)⟩

/-- C9 counterexample: a stored record holding bookNotDuplicates next
to a non-empty bookExemptions value makes get_exemption_lists return a
non-empty book list, refuting the claim that the returned list is
empty. -/
theorem C9_counterexample :
    alContains KEY_BOOK_NOT_DUPLICATES c9R = true
    ∧ get_exemption_lists c9db c9s =
        some (([Value.arr [Value.int 3]], Value.arr []), c9s1)
    ∧ ([Value.arr [Value.int 3]] : List Value) ≠ [] :=
  ⟨by with_unfolding_all rfl, by with_unfolding_all rfl, by simp⟩

/-- C9 amended: for a stored record holding the v1.0 keys
bookNotDuplicates and authorNotDuplicates and neither new exemption
key, get_exemption_lists returns a pair of empty lists, stores empty
lists under both new keys, and leaves both legacy keys in the stored
record, because set_exemption_list re-reads the stored record instead
of saving the locally modified copy. -/
theorem C9_legacy_maps_discarded (db : Db) (s : State) (R : Record)
    (hnl : noLegacy db s)
    (hst : alLookup (PREFS_NAMESPACE, PREFS_KEY_SETTINGS) s.dbPrefs = some R)
    (hb : alContains KEY_BOOK_NOT_DUPLICATES R = true)
    (ha : alContains KEY_AUTHOR_NOT_DUPLICATES R = true)
    (hbe : alContains KEY_BOOK_EXEMPTIONS R = false)
    (hae : alContains KEY_AUTHOR_EXEMPTIONS R = false) :
    ∀ r s1, get_exemption_lists db s = some (r, s1) →
      r = (([] : List Value), Value.arr [])
      ∧ ∀ R1, alLookup (PREFS_NAMESPACE, PREFS_KEY_SETTINGS) s1.dbPrefs = some R1 →
          alContains KEY_BOOK_NOT_DUPLICATES R1 = true
          ∧ alContains KEY_AUTHOR_NOT_DUPLICATES R1 = true
          ∧ alLookup KEY_BOOK_EXEMPTIONS R1 = some (Value.arr [])
          ∧ alLookup KEY_AUTHOR_EXEMPTIONS R1 = some (Value.arr []) := by
  have hSneqBN : KEY_SCHEMA_VERSION ≠ KEY_BOOK_NOT_DUPLICATES := by decide
  have hSneqAN : KEY_SCHEMA_VERSION ≠ KEY_AUTHOR_NOT_DUPLICATES := by decide
  have hSneqB : KEY_SCHEMA_VERSION ≠ KEY_BOOK_EXEMPTIONS := by decide
  have hSneqA : KEY_SCHEMA_VERSION ≠ KEY_AUTHOR_EXEMPTIONS := by decide
  have hBneqBN : KEY_BOOK_EXEMPTIONS ≠ KEY_BOOK_NOT_DUPLICATES := by decide
  have hBneqAN : KEY_BOOK_EXEMPTIONS ≠ KEY_AUTHOR_NOT_DUPLICATES := by decide
  have hAneqBN : KEY_AUTHOR_EXEMPTIONS ≠ KEY_BOOK_NOT_DUPLICATES := by decide
  have hAneqAN : KEY_AUTHOR_EXEMPTIONS ≠ KEY_AUTHOR_NOT_DUPLICATES := by decide
  have hAneqB : KEY_AUTHOR_EXEMPTIONS ≠ KEY_BOOK_EXEMPTIONS := by decide
  have hview0 : get_namespaced s PREFS_NAMESPACE PREFS_KEY_SETTINGS DEFAULT_LIBRARY_VALUES
      = R := by
    simp [get_namespaced, hst]
  rcases hglcp : get_library_config db s with ⟨cfg1, sA⟩
  have hview : get_namespaced sA PREFS_NAMESPACE PREFS_KEY_SETTINGS DEFAULT_LIBRARY_VALUES
      = cfg1 := by
    have h := glc_view db s hnl
    rw [hglcp] at h
    exact h
  have hsch1 : isCurrentSchema (alGetD cfg1 KEY_SCHEMA_VERSION (Value.int 0)) = true := by
    have h := glc_schema_current db s
    rw [hglcp] at h
    exact h
  have hnlA : noLegacy db sA := by
    have h := noLegacy_glc db s hnl
    rw [hglcp] at h
    exact h
  have hmig : migrate_library_config_if_required db R s = (cfg1, sA) := by
    rw [← hglcp, get_library_config_of_noLegacy db s hnl, hview0]
  have hcfg1 : cfg1 = R
      ∨ cfg1 = alInsert KEY_SCHEMA_VERSION (Value.flt DEFAULT_SCHEMA_VERSION) R := by
    by_cases hcs : isCurrentSchema (alGetD R KEY_SCHEMA_VERSION (Value.int 0)) = true
    · rw [migrate_of_current db R s hcs] at hmig
      injection hmig with h1 h2
      exact Or.inl h1.symm
    · rw [migrate_of_not_current db R s (by simpa using hcs)] at hmig
      injection hmig with h1 h2
      exact Or.inr h1.symm
  have hb1 : alContains KEY_BOOK_NOT_DUPLICATES cfg1 = true := by
    rcases hcfg1 with h1 | h1 <;> rw [h1]
    · exact hb
    · rw [alContains_alInsert_ne _ _ _ _ hSneqBN]
      exact hb
  have ha1 : alContains KEY_AUTHOR_NOT_DUPLICATES cfg1 = true := by
    rcases hcfg1 with h1 | h1 <;> rw [h1]
    · exact ha
    · rw [alContains_alInsert_ne _ _ _ _ hSneqAN]
      exact ha
  have hbe1 : alContains KEY_BOOK_EXEMPTIONS cfg1 = false := by
    rcases hcfg1 with h1 | h1 <;> rw [h1]
    · exact hbe
    · rw [alContains_alInsert_ne _ _ _ _ hSneqB]
      exact hbe
  have hae1 : alContains KEY_AUTHOR_EXEMPTIONS cfg1 = false := by
    rcases hcfg1 with h1 | h1 <;> rw [h1]
    · exact hae
    · rw [alContains_alInsert_ne _ _ _ _ hSneqA]
      exact hae
  have hcore := exemption_legacy_core db sA cfg1 hnlA hview hsch1 hb1 ha1 hbe1 hae1
  have hrestart : get_exemption_lists db s = get_exemption_lists db sA := by
    have h := get_exemption_lists_restart db s hnl
    rw [hglcp] at h
    exact h
  intro r s1 h
  rw [hrestart, hcore] at h
  injection h with h1
  injection h1 with hr hs
  subst hr
  refine ⟨rfl, ?_⟩
  intro R1 hR1
  rw [← hs] at hR1
  simp only [set_namespaced] at hR1
  rw [alLookup_alInsert_self] at hR1
  injection hR1 with hR2
  subst hR2
  refine ⟨?_, ?_, ?_, ?_⟩
  · rw [alContains_alInsert_ne _ _ _ _ hAneqBN, alContains_alInsert_ne _ _ _ _ hBneqBN]
    exact hb1
  · rw [alContains_alInsert_ne _ _ _ _ hAneqAN, alContains_alInsert_ne _ _ _ _ hBneqAN]
    exact ha1
  · rw [alLookup_alInsert_ne _ _ _ _ hAneqB]
    exact alLookup_alInsert_self _ _ _
  · exact alLookup_alInsert_self _ _ _

/-- C9 witness: a v1.0 record with both legacy maps and no schema
version is processed into a stored record that keeps both legacy keys
and holds empty lists under both new keys. -/
theorem C9_witness :
    alContains KEY_BOOK_NOT_DUPLICATES c9wR2 = true
    ∧ alContains KEY_AUTHOR_NOT_DUPLICATES c9wR2 = true
    ∧ alLookup KEY_BOOK_EXEMPTIONS c9wR2 = some (Value.arr [])
    ∧ alLookup KEY_AUTHOR_EXEMPTIONS c9wR2 = some (Value.arr []) :=
  (C9_legacy_maps_discarded c9wdb c9ws c9wR
    (by intro L hL; simp [c9ws] at hL)
    (by with_unfolding_all rfl) (by with_unfolding_all rfl) (by with_unfolding_all rfl)
    (by with_unfolding_all rfl) (by with_unfolding_all rfl)
    (([] : List Value), Value.arr []) c9ws1 (by with_unfolding_all rfl)).2
    c9wR2 (by with_unfolding_all rfl)

/-- C5 counterexample: with the v1.0 key bookNotDuplicates in the
stored record, a second get_exemption_lists call returns a different
pair than the first (the bookExemptions reset performed for the legacy
key on the first call feeds the second call an empty list), refuting
the claimed idempotence. -/
theorem C5_counterexample :
    get_exemption_lists c5db c5s =
      some (([Value.arr [Value.int 1]], Value.arr []), c5s1)
    ∧ get_exemption_lists c5db c5s1 = some ((([] : List Value), Value.arr []), c5s1)
    ∧ ([Value.arr [Value.int 1]] : List Value) ≠ [] :=
  ⟨by with_unfolding_all rfl, by with_unfolding_all rfl, by simp⟩

/-- C5 amended: when the uuid of db has no legacy JSON entry and the
stored record (if any) holds neither v1.0 legacy key, a second call to
get_exemption_lists after a first one returns the same pair and leaves
the whole state, per-library store and plugin_prefs, unchanged. -/
theorem C5_idempotent (db : Db) (s : State) (b : List Value) (a : Value) (s1 : State)
    (hnl : noLegacy db s)
    (hclean : ∀ R, alLookup (PREFS_NAMESPACE, PREFS_KEY_SETTINGS) s.dbPrefs = some R →
      alContains KEY_BOOK_NOT_DUPLICATES R = false
      ∧ alContains KEY_AUTHOR_NOT_DUPLICATES R = false)
    (h : get_exemption_lists db s = some ((b, a), s1)) :
    get_exemption_lists db s1 = some ((b, a), s1) := by
  have hBneqS : KEY_BOOK_EXEMPTIONS ≠ KEY_SCHEMA_VERSION := by decide
  have hBneqBN : KEY_BOOK_EXEMPTIONS ≠ KEY_BOOK_NOT_DUPLICATES := by decide
  have hBneqAN : KEY_BOOK_EXEMPTIONS ≠ KEY_AUTHOR_NOT_DUPLICATES := by decide
  have hBneqA : KEY_BOOK_EXEMPTIONS ≠ KEY_AUTHOR_EXEMPTIONS := by decide
  have hSneqBN : KEY_SCHEMA_VERSION ≠ KEY_BOOK_NOT_DUPLICATES := by decide
  have hSneqAN : KEY_SCHEMA_VERSION ≠ KEY_AUTHOR_NOT_DUPLICATES := by decide
  rcases hglcp : get_library_config db s with ⟨cfg1, sA⟩
  have hview : get_namespaced sA PREFS_NAMESPACE PREFS_KEY_SETTINGS DEFAULT_LIBRARY_VALUES
      = cfg1 := by
    have hx := glc_view db s hnl
    rw [hglcp] at hx
    exact hx
  have hsch1 : isCurrentSchema (alGetD cfg1 KEY_SCHEMA_VERSION (Value.int 0)) = true := by
    have hx := glc_schema_current db s
    rw [hglcp] at hx
    exact hx
  have hsch1e : alGetD cfg1 KEY_SCHEMA_VERSION (Value.int 0) =
      Value.flt DEFAULT_SCHEMA_VERSION := (isCurrentSchema_true_iff _).mp hsch1
  have hnlA : noLegacy db sA := by
    have hx := noLegacy_glc db s hnl
    rw [hglcp] at hx
    exact hx
  have hv10 : alContains KEY_BOOK_NOT_DUPLICATES
        (get_namespaced s PREFS_NAMESPACE PREFS_KEY_SETTINGS DEFAULT_LIBRARY_VALUES) = false
      ∧ alContains KEY_AUTHOR_NOT_DUPLICATES
        (get_namespaced s PREFS_NAMESPACE PREFS_KEY_SETTINGS DEFAULT_LIBRARY_VALUES)
        = false := by
    cases hst : alLookup (PREFS_NAMESPACE, PREFS_KEY_SETTINGS) s.dbPrefs with
    | none =>
      rw [show get_namespaced s PREFS_NAMESPACE PREFS_KEY_SETTINGS DEFAULT_LIBRARY_VALUES
        = DEFAULT_LIBRARY_VALUES from by simp [get_namespaced, hst]]
      exact ⟨by with_unfolding_all rfl, by with_unfolding_all rfl⟩
    | some R =>
      rw [show get_namespaced s PREFS_NAMESPACE PREFS_KEY_SETTINGS DEFAULT_LIBRARY_VALUES
        = R from by simp [get_namespaced, hst]]
      exact hclean R hst
  have hmig : migrate_library_config_if_required db
      (get_namespaced s PREFS_NAMESPACE PREFS_KEY_SETTINGS DEFAULT_LIBRARY_VALUES) s
      = (cfg1, sA) := by
    rw [← hglcp, get_library_config_of_noLegacy db s hnl]
  have hcfg1 : cfg1 = get_namespaced s PREFS_NAMESPACE PREFS_KEY_SETTINGS
        DEFAULT_LIBRARY_VALUES
      ∨ cfg1 = alInsert KEY_SCHEMA_VERSION (Value.flt DEFAULT_SCHEMA_VERSION)
        (get_namespaced s PREFS_NAMESPACE PREFS_KEY_SETTINGS DEFAULT_LIBRARY_VALUES) := by
    by_cases hcs : isCurrentSchema
        (alGetD (get_namespaced s PREFS_NAMESPACE PREFS_KEY_SETTINGS DEFAULT_LIBRARY_VALUES)
          KEY_SCHEMA_VERSION (Value.int 0)) = true
    · rw [migrate_of_current db _ s hcs] at hmig
      injection hmig with h1 h2
      exact Or.inl h1.symm
    · rw [migrate_of_not_current db _ s (by simpa using hcs)] at hmig
      injection hmig with h1 h2
      exact Or.inr h1.symm
  have hbnd1 : alContains KEY_BOOK_NOT_DUPLICATES cfg1 = false := by
    rcases hcfg1 with h1 | h1 <;> rw [h1]
    · exact hv10.1
    · rw [alContains_alInsert_ne _ _ _ _ hSneqBN]
      exact hv10.1
  have hand1 : alContains KEY_AUTHOR_NOT_DUPLICATES cfg1 = false := by
    rcases hcfg1 with h1 | h1 <;> rw [h1]
    · exact hv10.2
    · rw [alContains_alInsert_ne _ _ _ _ hSneqAN]
      exact hv10.2
  have htail : exemption_tail db cfg1 sA = some ((b, a), s1) := by
    have hx := get_exemption_lists_restart db s hnl
    rw [hglcp] at hx
    rw [hx, get_exemption_lists_eq_tail db sA,
      glc_of_clean db sA cfg1 hnlA hview hsch1] at h
    exact h
  have h2 : dropLegacyBook db cfg1 sA = (cfg1, sA) := by
    simp [dropLegacyBook, hbnd1]
  have h3 : dropLegacyAuthor db cfg1 sA = (cfg1, sA) := by
    simp [dropLegacyAuthor, hand1]
  simp only [exemption_tail, h2, h3] at htail
  cases hget : alGetD cfg1 KEY_BOOK_EXEMPTIONS (Value.arr []) with
  | arr bl =>
    rw [hget] at htail
    dsimp only at htail
    cases hpr : pruneLists db.hasId bl with
    | none =>
      rw [hpr] at htail
      simp at htail
    | some pr =>
      obtain ⟨pruned, ch⟩ := pr
      rw [hpr] at htail
      dsimp only at htail
      cases ch with
      | false =>
        simp only [Bool.false_eq_true, if_false, Option.some.injEq, Prod.mk.injEq] at htail
        obtain ⟨⟨hbq, haq⟩, hsq⟩ := htail
        have hbl : pruned = bl := pruneLists_unchanged db.hasId bl pruned hpr
        rw [← hsq, ← hbq, ← haq, hbl]
        exact get_exemption_lists_clean db sA cfg1 bl hnlA hview hsch1e hbnd1 hand1 hget
          (pruneLists_post db.hasId bl bl false (hbl ▸ hpr))
      | true =>
        simp only [if_true, Option.some.injEq, Prod.mk.injEq] at htail
        obtain ⟨⟨hbq, haq⟩, hsq⟩ := htail
        have hsel : set_exemption_list db KEY_BOOK_EXEMPTIONS
            (Value.arr (pruned.filter isNonEmptyArr)) sA =
            set_namespaced sA PREFS_NAMESPACE PREFS_KEY_SETTINGS
              (alInsert KEY_BOOK_EXEMPTIONS (Value.arr (pruned.filter isNonEmptyArr)) cfg1) :=
          set_exemption_list_of_clean db sA cfg1 KEY_BOOK_EXEMPTIONS _ hnlA hview hsch1
        rw [hsel] at hsq
        have hnl1 : noLegacy db s1 := by
          rw [← hsq]
          exact noLegacy_set_namespaced db sA _ _ _ hnlA
        have hview1 : get_namespaced s1 PREFS_NAMESPACE PREFS_KEY_SETTINGS
            DEFAULT_LIBRARY_VALUES =
            alInsert KEY_BOOK_EXEMPTIONS (Value.arr (pruned.filter isNonEmptyArr)) cfg1 := by
          rw [← hsq]
          exact get_namespaced_set_namespaced_same sA _ _ _ _
        have hvalid2 : ∀ l ∈ pruned.filter isNonEmptyArr,
            ∃ xs, l = Value.arr xs ∧ ∀ v ∈ xs, db.hasId v = true := by
          intro l hl
          exact pruneLists_post db.hasId bl pruned true hpr l (List.mem_filter.mp hl).1
        have hclean2 := get_exemption_lists_clean db s1
          (alInsert KEY_BOOK_EXEMPTIONS (Value.arr (pruned.filter isNonEmptyArr)) cfg1)
          (pruned.filter isNonEmptyArr) hnl1 hview1
          (by rw [alGetD_alInsert_ne _ _ _ _ _ hBneqS]; exact hsch1e)
          (by rw [alContains_alInsert_ne _ _ _ _ hBneqBN]; exact hbnd1)
          (by rw [alContains_alInsert_ne _ _ _ _ hBneqAN]; exact hand1)
          (alGetD_alInsert_self _ _ _ _) hvalid2
        rw [hclean2, alGetD_alInsert_ne _ _ _ _ _ hBneqA, hbq, haq]
  | str v =>
    rw [hget] at htail
    simp at htail
  | int v =>
    rw [hget] at htail
    simp at htail
  | flt v =>
    rw [hget] at htail
    simp at htail
  | dict v =>
    rw [hget] at htail
    simp at htail

/-- C5 witness: a clean record holding one stale id; the first call
prunes and writes, the second call reproduces its result exactly. -/
theorem C5_witness :
    get_exemption_lists c5wdb c5ws = some ((([] : List Value), Value.arr []), c5ws1)
    ∧ get_exemption_lists c5wdb c5ws1 = some ((([] : List Value), Value.arr []), c5ws1) :=
  ⟨by with_unfolding_all rfl,
   C5_idempotent c5wdb c5ws [] (Value.arr []) c5ws1
     (by intro L hL; simp [c5ws] at hL)
     (by
       intro R hR
       rw [(by with_unfolding_all rfl :
         alLookup (PREFS_NAMESPACE, PREFS_KEY_SETTINGS) c5ws.dbPrefs = some c5wR)] at hR
       injection hR with h2
       subst h2
       exact ⟨by with_unfolding_all rfl, by with_unfolding_all rfl⟩)
     (by with_unfolding_all rfl)⟩

end FindDup
